import Mathlib

/-!
Verification of the core of the `riak-rust-client` library (Rust) against its
natural-language specification.

The development shallowly embeds the parts of the source that the claims are
about:

* `src/errors.rs`     — the error taxonomy (`RiakErr`, `ServerError`);
* `src/stream.rs`     — `BucketStream` / `KeyStream` with their `next` / `all`;
* `src/lib.rs`        — the `Client` façade (timeout field, exchange code pairs);
* `src/object.rs` and `src/rpb/utils.rs` — the fetch-object request/response
  conversions.

The repository declares `mod connection;` (the framed transport `RiakConn`
with `send` / `receive` / `exchange` / `reconnect`) and the generated
protobuf modules (`rpb::codes`, `rpb::riak`, …), but those files are not part
of the sources available here.  Definitions for them are modelled from the
specification (sections 3, 4.1, 6 and 8 of the spec) and are marked
`Modelled from the spec:` in their doc comments.

Bytes are modelled as `List Nat`, each entry conceptually `< 256`; u32 values
are `Nat` with explicit `% 2^32` where the source performs machine-integer
truncation, and Rust `as u8` narrowing is `% 256`.
-/

namespace Riak

/-- Byte sequences (Rust `Vec<u8>` / `&[u8]`), each element conceptually < 256. -/
abbrev Bytes := List Nat

/-! ## Error taxonomy (`src/errors.rs`) -/

/-- `ServerError` from `src/errors.rs`: carries a `u8` code and opaque
message bytes.  The `u8` type of `code` is taken verbatim from the source
(`code: u8`); values are kept below 256 by the constructor. -/
structure ServerError where
  code : Nat
  data : Bytes
deriving Repr, DecidableEq

/-- `ServerError::new(error_code: u8, error_data)` from `src/errors.rs`.
`code` is a `u8` in the source; the Rust caller's `as u8` narrowing is `% 256`. -/
def ServerError.new (error_code : Nat) (error_data : Bytes) : ServerError :=
  { code := error_code % 256, data := error_data }

/-- `RiakErr` from `src/errors.rs`: exactly three variants.  `IoError` and
`ProtobufError` carry an opaque description (the wrapped `io::Error` /
`protobuf::ProtobufError`), modelled as bytes. -/
inductive RiakErr where
  | IoError (msg : Bytes)
  | ProtobufError (msg : Bytes)
  | ServerError (e : Riak.ServerError)
deriving Repr, DecidableEq

instance {ε α : Type} [DecidableEq ε] [DecidableEq α] :
    DecidableEq (Except ε α) := fun x y =>
  match x, y with
  | Except.ok a, Except.ok b =>
    if h : a = b then isTrue (by rw [h]) else isFalse (by simp [h])
  | Except.error a, Except.error b =>
    if h : a = b then isTrue (by rw [h]) else isFalse (by simp [h])
  | Except.ok _, Except.error _ => isFalse (by simp)
  | Except.error _, Except.ok _ => isFalse (by simp)

/-! ## Message codes (`src/rpb/codes.rs`, not present under `src/`)

Modelled from the spec: §3 lists the code table symbolically and the
end-to-end scenarios fix `ErrorResp = 0`, `Ping = 1`, `PingResp = 2`
(E1, E2); the remaining values are the standard Riak protocol-buffer API
codes.  Only distinctness and identity of the constants matter to the
claims, never the numeric values themselves. -/
namespace codes

def RpbErrorResp : Nat := 0
def RpbPingReq : Nat := 1
def RpbPingResp : Nat := 2
def RpbGetServerInfoReq : Nat := 7
def RpbGetServerInfoResp : Nat := 8
def RpbGetReq : Nat := 9
def RpbGetResp : Nat := 10
def RpbPutReq : Nat := 11
def RpbPutResp : Nat := 12
def RpbDelReq : Nat := 13
def RpbDelResp : Nat := 14
def RpbListBucketsReq : Nat := 15
def RpbListBucketsResp : Nat := 16
def RpbListKeysReq : Nat := 17
def RpbListKeysResp : Nat := 18
def RpbGetBucketReq : Nat := 19
def RpbGetBucketResp : Nat := 20
def RpbSetBucketReq : Nat := 21
def RpbSetBucketResp : Nat := 22
def RpbResetBucketReq : Nat := 29
def RpbResetBucketResp : Nat := 30
def RpbGetBucketTypeReq : Nat := 31
def RpbSetBucketTypeReq : Nat := 32
def RpbGetBucketKeyPreflistReq : Nat := 33
def RpbGetBucketKeyPreflistResp : Nat := 34
def RpbYokozunaIndexGetReq : Nat := 54
def RpbYokozunaIndexGetResp : Nat := 55
def RpbYokozunaIndexPutReq : Nat := 56
def RpbYokozunaIndexDeleteReq : Nat := 57
def RpbYokozunaSchemaPutReq : Nat := 58
def RpbYokozunaSchemaGetReq : Nat := 59
def RpbYokozunaSchemaGetResp : Nat := 60

end codes

/-! ## Big-endian u32 -/

/-- The four big-endian bytes of a u32 value (truncating to 32 bits). -/
def be32 (n : Nat) : Bytes :=
  [n / 2 ^ 24 % 256, n / 2 ^ 16 % 256, n / 2 ^ 8 % 256, n % 256]

/-- The value of a big-endian byte sequence. -/
def beVal (l : Bytes) : Nat :=
  l.foldl (fun a b => a * 256 + b) 0

theorem be32_length (n : Nat) : (be32 n).length = 4 := rfl

theorem beVal_be32 (n : Nat) (h : n < 2 ^ 32) : beVal (be32 n) = n := by
  simp only [be32, beVal, List.foldl]
  omega

/-! ## Protobuf varint and the `RpbErrorResp` record

Modelled from the spec: the generated codec (`rpb/riak.rs` etc.) is not part
of the sources here; §6 fixes the ErrorResp payload shape as a record with a
required opaque `errmsg` bytes blob (field 1) and a required u32 `errcode`
(field 2), in the textbook varint / length-delimited protocol-buffer
encoding.  The decoder accepts the canonical encoding of the two required
fields in schema order. -/

/-- Little-endian base-128 varint encoding. -/
def encodeVarint (n : Nat) : Bytes :=
  if h : n < 128 then [n]
  else (n % 128 + 128) :: encodeVarint (n / 128)
termination_by n
decreasing_by omega

/-- Varint decoding; returns the value and the remaining bytes. -/
def decodeVarint : Bytes → Option (Nat × Bytes)
  | [] => none
  | b :: rest =>
    if b < 128 then some (b, rest)
    else
      match decodeVarint rest with
      | some (v, r) => some (b - 128 + 128 * v, r)
      | none => none

theorem encodeVarint_lt (n : Nat) (h : n < 128) : encodeVarint n = [n] := by
  rw [encodeVarint]; simp [h]

theorem encodeVarint_ge (n : Nat) (h : ¬ n < 128) :
    encodeVarint n = (n % 128 + 128) :: encodeVarint (n / 128) := by
  rw [encodeVarint]; simp [h]

theorem decodeVarint_encodeVarint (n : Nat) (rest : Bytes) :
    decodeVarint (encodeVarint n ++ rest) = some (n, rest) := by
  induction n using Nat.strong_induction_on with
  | _ n ih =>
    rw [encodeVarint]
    by_cases h : n < 128
    · simp [h, decodeVarint]
    · have hd : n / 128 < n := by omega
      simp only [h, dite_false, List.cons_append, decodeVarint]
      have hb : ¬ n % 128 + 128 < 128 := by omega
      simp only [hb, if_false, ih (n / 128) hd]
      have heq : n % 128 + 128 * (n / 128) = n := by omega
      simp [heq]

/-- Canonical protobuf encoding of the `RpbErrorResp` record:
field 1 (`errmsg`, wire type 2, tag byte `0x0A`) then field 2
(`errcode`, wire type 0, tag byte `0x10`). -/
def encodeRpbErrorResp (errmsg : Bytes) (errcode : Nat) : Bytes :=
  10 :: encodeVarint errmsg.length ++ errmsg ++ 16 :: encodeVarint errcode

/-- Decoder for the canonical `RpbErrorResp` encoding: expects field 1
(`errmsg`) then field 2 (`errcode`) and the end of the payload. -/
def decodeRpbErrorResp (payload : Bytes) : Option (Bytes × Nat) :=
  match payload with
  | 10 :: afterTag1 =>
    match decodeVarint afterTag1 with
    | some (len, afterLen) =>
      if len ≤ afterLen.length then
        let errmsg := afterLen.take len
        match afterLen.drop len with
        | 16 :: afterTag2 =>
          match decodeVarint afterTag2 with
          | some (errcode, []) => some (errmsg, errcode)
          | _ => none
        | _ => none
      else none
    | none => none
  | _ => none

theorem decodeRpbErrorResp_encodeRpbErrorResp (errmsg : Bytes) (errcode : Nat) :
    decodeRpbErrorResp (encodeRpbErrorResp errmsg errcode) =
      some (errmsg, errcode) := by
  have henc : encodeVarint errcode ++ ([] : Bytes) = encodeVarint errcode :=
    List.append_nil _
  have h1 : decodeVarint (encodeVarint errmsg.length ++
      (errmsg ++ 16 :: encodeVarint errcode)) =
      some (errmsg.length, errmsg ++ 16 :: encodeVarint errcode) :=
    decodeVarint_encodeVarint _ _
  have h2 : decodeVarint (encodeVarint errcode) = some (errcode, []) := by
    rw [← henc]; exact decodeVarint_encodeVarint _ _
  simp only [encodeRpbErrorResp, decodeRpbErrorResp, List.cons_append,
    List.append_assoc, h1]
  have hle : errmsg.length ≤ (errmsg ++ 16 :: encodeVarint errcode).length := by
    simp
  simp [hle, List.take_left, List.drop_left, h2]

/-! ## Framed transport (`src/connection.rs`, not present under `src/`)

Modelled from the spec: §4.1 — `RiakConn::send` writes a u32 big-endian
length equal to `1 + len(payload)`, then the code byte, then the payload;
`RiakConn::receive(expected_code)` reads 4 bytes as a big-endian u32
`total_len`, one code byte and `total_len - 1` payload bytes, dispatching on
the code.  The socket is modelled as the byte sequence exchanged; a read
past the available input is an `IoError` (a short read, spec §7).  The spec
(§8) has a protocol mismatch "reported as IoError for simplicity if a
dedicated kind is not introduced"; `RiakErr` in `src/errors.rs` has no
dedicated kind, so the mismatch surfaces as `IoError` with the distinguished
description `protocolErrMsg`. -/

/-- Distinguished description of the unexpected-code (protocol) error. -/
def protocolErrMsg : Bytes := [112, 114, 111, 116, 111]

/-- Distinguished description of a short read. -/
def shortReadMsg : Bytes := [101, 111, 102]

/-- Distinguished description of a malformed `RpbErrorResp` payload. -/
def badErrRespMsg : Bytes := [98, 97, 100, 101, 114, 114]

/-- Modelled from the spec: `RiakConn::send(code, payload)` — the exact byte
sequence written to the socket.  The length is a u32 (wrapping at 2^32) and
the code a u8. -/
def send (code : Nat) (payload : Bytes) : Bytes :=
  be32 ((payload.length + 1) % 2 ^ 32) ++ [code % 256] ++ payload

/-- Modelled from the spec: `RiakConn::receive(expected_code)` applied to the
byte sequence available on the socket (any bytes beyond the frame stay
unread).  Reads `total_len` (4 bytes big-endian), one code byte, and
`total_len - 1` payload bytes; an `RpbErrorResp` code yields a `ServerError`
parsed from the payload (`ServerError::new` takes a `u8` code, so the u32
`errcode` is narrowed with `as u8`), the expected code yields the payload
unchanged, any other code is the protocol error. -/
def receive (expected_code : Nat) (input : Bytes) : Except RiakErr Bytes :=
  if 4 ≤ input.length then
    let total_len := beVal (input.take 4)
    let rest := input.drop 4
    if 1 ≤ total_len ∧ total_len ≤ rest.length then
      let code := rest.headI
      let payload := (rest.drop 1).take (total_len - 1)
      if code = codes.RpbErrorResp then
        match decodeRpbErrorResp payload with
        | some (errmsg, errcode) =>
          Except.error (RiakErr.ServerError (ServerError.new errcode errmsg))
        | none => Except.error (RiakErr.ProtobufError badErrRespMsg)
      else if code = expected_code then
        Except.ok payload
      else
        Except.error (RiakErr.IoError protocolErrMsg)
    else
      Except.error (RiakErr.IoError shortReadMsg)
  else
    Except.error (RiakErr.IoError shortReadMsg)

/-- Receiving from a socket whose available bytes start with the frame
`send code payload` dispatches exactly on the code byte: `RpbErrorResp`
parses the payload as a server error, the expected code returns the payload
unchanged, anything else is the protocol error. -/
theorem receive_send (expected code : Nat) (payload rest : Bytes)
    (hc : code < 256) (hL : payload.length ≤ 2 ^ 32 - 2) :
    receive expected (send code payload ++ rest) =
      (if code = codes.RpbErrorResp then
        match decodeRpbErrorResp payload with
        | some (errmsg, errcode) =>
          Except.error (RiakErr.ServerError (ServerError.new errcode errmsg))
        | none => Except.error (RiakErr.ProtobufError badErrRespMsg)
      else if code = expected then Except.ok payload
      else Except.error (RiakErr.IoError protocolErrMsg)) := by
  have hmod : (payload.length + 1) % 4294967296 = payload.length + 1 := by
    omega
  have hcode : code % 256 = code := Nat.mod_eq_of_lt hc
  have hinput : send code payload ++ rest
      = be32 (payload.length + 1) ++ (code :: (payload ++ rest)) := by
    simp [send, hmod, hcode]
  have htake : (be32 (payload.length + 1) ++ (code :: (payload ++ rest))).take 4
      = be32 (payload.length + 1) := List.take_left' (be32_length _)
  have hdrop : (be32 (payload.length + 1) ++ (code :: (payload ++ rest))).drop 4
      = code :: (payload ++ rest) := List.drop_left' (be32_length _)
  have hlen : 4 ≤ (be32 (payload.length + 1) ++ (code :: (payload ++ rest))).length := by
    simp [be32]
  have hbe : beVal (be32 (payload.length + 1)) = payload.length + 1 :=
    beVal_be32 _ (by omega)
  have hcond : 1 ≤ payload.length + 1 ∧
      payload.length + 1 ≤ (code :: (payload ++ rest)).length := by
    constructor
    · omega
    · simp
  rw [hinput]
  simp only [receive, htake, hdrop, hbe, hlen, if_true, hcond, and_self,
    List.headI, List.drop_succ_cons, List.drop_zero, Nat.add_sub_cancel,
    List.take_left, if_pos]

/-- The varint encoding of `n < 128 ^ (k + 1)` takes at most `k + 1` bytes. -/
theorem encodeVarint_length_le (k n : Nat) (h : n < 128 ^ (k + 1)) :
    (encodeVarint n).length ≤ k + 1 := by
  induction k generalizing n with
  | zero =>
    rw [encodeVarint]
    have : n < 128 := by simpa using h
    simp [this]
  | succ k ih =>
    rw [encodeVarint]
    by_cases hn : n < 128
    · simp [hn]
    · have hdiv : n / 128 < 128 ^ (k + 1) := by
        rw [Nat.div_lt_iff_lt_mul (by norm_num)]
        calc n < 128 ^ (k + 1 + 1) := h
          _ = 128 ^ (k + 1) * 128 := by ring
      simpa [hn] using ih (n / 128) hdiv

/-- The canonical `RpbErrorResp` payload for a u32 `errcode` and an `errmsg`
of at most 2^20 bytes fits comfortably in a frame. -/
theorem encodeRpbErrorResp_length_le (errmsg : Bytes) (errcode : Nat)
    (hm : errmsg.length ≤ 2 ^ 20) (hc : errcode < 2 ^ 32) :
    (encodeRpbErrorResp errmsg errcode).length ≤ 2 ^ 32 - 2 := by
  have h1 : (encodeVarint errmsg.length).length ≤ 3 :=
    encodeVarint_length_le 2 _ (by norm_num at hm ⊢; omega)
  have h2 : (encodeVarint errcode).length ≤ 5 :=
    encodeVarint_length_le 4 _ (by norm_num at hc ⊢; omega)
  simp only [encodeRpbErrorResp, List.length_cons, List.length_append]
  norm_num at hm ⊢
  omega

/-- C5: `send(code, P)` writes exactly `L + 5` bytes: the 4-byte big-endian
length `L + 1`, the code byte, and `P` unchanged. -/
theorem send_writes_length_code_payload (code : Nat) (P : Bytes)
    (hc : code < 256) (hL : P.length ≤ 2 ^ 32 - 2) :
    send code P = be32 (P.length + 1) ++ code :: P ∧
    (send code P).length = P.length + 5 ∧
    beVal ((send code P).take 4) = P.length + 1 := by
  have hmod : (P.length + 1) % 4294967296 = P.length + 1 := by omega
  have hcode : code % 256 = code := Nat.mod_eq_of_lt hc
  have heq : send code P = be32 (P.length + 1) ++ code :: P := by
    simp [send, hmod, hcode]
  refine ⟨heq, ?_, ?_⟩
  · rw [heq]; simp [be32]
  · rw [heq, List.take_left' (be32_length _)]
    exact beVal_be32 _ (by omega)

/-- C5 witness: the concrete frame for code 1 and payload `[2, 3]`. -/
theorem send_writes_length_code_payload_witness :
    (1 : Nat) < 256 ∧ ([2, 3] : Bytes).length ≤ 2 ^ 32 - 2 ∧
    (send 1 [2, 3] = be32 (([2, 3] : Bytes).length + 1) ++ 1 :: [2, 3] ∧
      (send 1 [2, 3]).length = ([2, 3] : Bytes).length + 5 ∧
      beVal ((send 1 [2, 3]).take 4) = ([2, 3] : Bytes).length + 1) :=
  ⟨by norm_num, by norm_num,
    send_writes_length_code_payload 1 [2, 3] (by norm_num) (by norm_num)⟩

/-- C4: `receive(expected_code)` on a well-formed frame: an `RpbErrorResp`
code fails with the `ServerError` parsed from the payload (accepted in place
of any expected code), the expected code returns the payload unchanged, and
any other code fails with the protocol error. -/
theorem receive_dispatches_on_code (expected code errcode : Nat)
    (payload errmsg rest : Bytes) :
    (payload = encodeRpbErrorResp errmsg errcode →
      payload.length ≤ 2 ^ 32 - 2 →
      receive expected (send codes.RpbErrorResp payload ++ rest) =
        Except.error (RiakErr.ServerError (ServerError.new errcode errmsg))) ∧
    (code < 256 → code ≠ codes.RpbErrorResp → code = expected →
      payload.length ≤ 2 ^ 32 - 2 →
      receive expected (send code payload ++ rest) = Except.ok payload) ∧
    (code < 256 → code ≠ codes.RpbErrorResp → code ≠ expected →
      payload.length ≤ 2 ^ 32 - 2 →
      receive expected (send code payload ++ rest) =
        Except.error (RiakErr.IoError protocolErrMsg)) := by
  refine ⟨fun henc hL => ?_, fun hc hne heq hL => ?_, fun hc hne hne2 hL => ?_⟩
  · rw [receive_send expected codes.RpbErrorResp payload rest (by norm_num [codes.RpbErrorResp]) hL]
    rw [if_pos rfl, henc, decodeRpbErrorResp_encodeRpbErrorResp]
  · rw [receive_send expected code payload rest hc hL, if_neg hne, if_pos heq]
  · rw [receive_send expected code payload rest hc hL, if_neg hne, if_neg hne2]

/-- C4 witness: the three dispatch outcomes at concrete frames. -/
theorem receive_dispatches_on_code_witness :
    receive 2 (send codes.RpbErrorResp [10, 1, 98, 16, 5] ++ []) =
      Except.error (RiakErr.ServerError (ServerError.new 5 [98])) ∧
    receive 2 (send 2 [7] ++ []) = Except.ok [7] ∧
    receive 2 (send 3 [7] ++ []) =
      Except.error (RiakErr.IoError protocolErrMsg) := by
  refine ⟨?_, ?_, ?_⟩
  · exact (receive_dispatches_on_code 2 2 5 [10, 1, 98, 16, 5] [98] []).1
      (by norm_num [encodeRpbErrorResp, encodeVarint_lt, encodeVarint_ge]) (by norm_num)
  · exact (receive_dispatches_on_code 2 2 0 [7] [] []).2.1
      (by norm_num) (by norm_num [codes.RpbErrorResp]) rfl (by norm_num)
  · exact (receive_dispatches_on_code 2 3 0 [7] [] []).2.2
      (by norm_num) (by norm_num [codes.RpbErrorResp]) (by norm_num) (by norm_num)

/-- C3 counterexample: the server error record `{errmsg = b"bad",
errcode = 256}` (canonical encoding `[10, 3, 98, 97, 100, 16, 128, 2]`)
reaches the caller as a `ServerError` with code `0`, not `256`: the exact
u32 `errcode` is not preserved, because `ServerError` (src/errors.rs) stores
the code as a `u8`. -/
theorem serverError_code_not_exact_at_256 :
    decodeRpbErrorResp [10, 3, 98, 97, 100, 16, 128, 2] = some ([98, 97, 100], 256) ∧
    receive codes.RpbPingResp
        (send codes.RpbErrorResp [10, 3, 98, 97, 100, 16, 128, 2]) =
      Except.error (RiakErr.ServerError ⟨0, [98, 97, 100]⟩) ∧
    (0 : Nat) ≠ 256 := by
  decide

/-- C3 amended: for every `ErrorResp` reply, the operation fails with a
`ServerError` carrying the exact error-message bytes and the `errcode`
narrowed to a u8 (`errcode % 256`); the exposed code equals the wire
`errcode` exactly whenever `errcode < 256`. -/
theorem serverError_carries_errmsg_and_errcode_mod_256
    (expected errcode : Nat) (errmsg rest : Bytes)
    (hm : errmsg.length ≤ 2 ^ 20) (hc : errcode < 2 ^ 32) :
    receive expected
        (send codes.RpbErrorResp (encodeRpbErrorResp errmsg errcode) ++ rest) =
      Except.error (RiakErr.ServerError ⟨errcode % 256, errmsg⟩) ∧
    (errcode < 256 → errcode % 256 = errcode) := by
  refine ⟨?_, fun h => Nat.mod_eq_of_lt h⟩
  have h := receive_send expected codes.RpbErrorResp
      (encodeRpbErrorResp errmsg errcode) rest
      (by norm_num [codes.RpbErrorResp])
      (encodeRpbErrorResp_length_le errmsg errcode hm hc)
  rw [h, if_pos rfl, decodeRpbErrorResp_encodeRpbErrorResp]
  rfl

/-- C3 amended witness: errcode 5 and errmsg `b"hi"` come back verbatim. -/
theorem serverError_carries_errmsg_and_errcode_mod_256_witness :
    ([104, 105] : Bytes).length ≤ 2 ^ 20 ∧ (5 : Nat) < 2 ^ 32 ∧
    (receive 2 (send codes.RpbErrorResp (encodeRpbErrorResp [104, 105] 5) ++ []) =
      Except.error (RiakErr.ServerError ⟨5 % 256, [104, 105]⟩) ∧
    ((5 : Nat) < 256 → 5 % 256 = 5)) :=
  ⟨by norm_num, by norm_num,
    serverError_carries_errmsg_and_errcode_mod_256 2 5 [104, 105] []
      (by norm_num) (by norm_num)⟩

/-! ## `String::from_utf8_lossy` (used by `BucketStream::next`)

`BucketStream::next` converts each bucket name with
`String::from_utf8_lossy(&bucket).into_owned()`.  A Rust `String` is its
UTF-8 bytes, so the conversion is a function on byte sequences: valid UTF-8
passes through unchanged and each maximal invalid subpart becomes the
replacement character U+FFFD (`EF BF BD`). -/

/-- UTF-8 encoding of U+FFFD, the replacement character. -/
def repl : Bytes := [239, 191, 189]

/-- Is `b` a UTF-8 continuation byte (`0x80..=0xBF`)? -/
def isCont (b : Nat) : Bool := 128 ≤ b && b ≤ 191

/-- Allowed second byte of a three-byte sequence with lead `b1`
(`0xE0` excludes overlongs, `0xED` excludes surrogates). -/
def cont3ok (b1 b2 : Nat) : Bool :=
  if b1 = 224 then 160 ≤ b2 && b2 ≤ 191
  else if b1 = 237 then 128 ≤ b2 && b2 ≤ 159
  else isCont b2

/-- Allowed second byte of a four-byte sequence with lead `b1`
(`0xF0` excludes overlongs, `0xF4` caps at U+10FFFF). -/
def cont4ok (b1 b2 : Nat) : Bool :=
  if b1 = 240 then 144 ≤ b2 && b2 ≤ 191
  else if b1 = 244 then 128 ≤ b2 && b2 ≤ 143
  else isCont b2

/-- `String::from_utf8_lossy` on the byte level. -/
def utf8Lossy : Bytes → Bytes
  | [] => []
  | b1 :: rest =>
    if b1 < 128 then b1 :: utf8Lossy rest
    else if b1 < 194 then repl ++ utf8Lossy rest
    else if b1 < 224 then
      match rest with
      | [] => repl
      | b2 :: rest2 =>
        if isCont b2 then b1 :: b2 :: utf8Lossy rest2
        else repl ++ utf8Lossy (b2 :: rest2)
    else if b1 < 240 then
      match rest with
      | [] => repl
      | b2 :: rest2 =>
        if cont3ok b1 b2 then
          match rest2 with
          | [] => repl
          | b3 :: rest3 =>
            if isCont b3 then b1 :: b2 :: b3 :: utf8Lossy rest3
            else repl ++ utf8Lossy (b3 :: rest3)
        else repl ++ utf8Lossy (b2 :: rest2)
    else if b1 < 245 then
      match rest with
      | [] => repl
      | b2 :: rest2 =>
        if cont4ok b1 b2 then
          match rest2 with
          | [] => repl
          | b3 :: rest3 =>
            if isCont b3 then
              match rest3 with
              | [] => repl
              | b4 :: rest4 =>
                if isCont b4 then b1 :: b2 :: b3 :: b4 :: utf8Lossy rest4
                else repl ++ utf8Lossy (b4 :: rest4)
            else repl ++ utf8Lossy (b3 :: rest3)
        else repl ++ utf8Lossy (b2 :: rest2)
    else repl ++ utf8Lossy rest

/-! ## Streams (`src/stream.rs`)

`BucketStream` and `KeyStream` each own their own connection
(`src/stream.rs` lines 10-14 and 152-158).  The connection (`RiakConn`,
whose source is not under `src/`) and the generated protobuf codec are
external collaborators of the stream code (spec §1); what `next` observes of
one protocol step is one of three outcomes, scripted per connection:

* `frame data done` — the receive succeeded and `parse_from_bytes`
  produced a reply with the given buckets/keys and done flag;
* `recvErr e` — the send or receive failed with `e` (an `IoError`, a
  `ServerError` from an ErrorResp frame, or a protocol mismatch);
* `parseErr` — the receive succeeded but `parse_from_bytes` failed.

`reconnect` outcomes are scripted the same way (`none` = success).  The
request serialization (`write_to_bytes` of a freshly built request, lines
97-100 and 243-246) renders an in-memory protobuf message and cannot fail;
its error branch is therefore not reachable in the model. -/

/-- The outcome of one receive-and-parse protocol step, as observed by
`next` (see `src/stream.rs` lines 59-77 / 103-131). -/
inductive RecvOutcome where
  | frame (data : List Bytes) (done : Bool)
  | recvErr (e : RiakErr)
  | parseErr
deriving Repr, DecidableEq

/-- The state of a stream's own `RiakConn`: the address and timeout recorded
at open (spec §3 / §4.1) plus the scripted outcomes of future receives and
reconnects on its socket. -/
structure StreamConn where
  peer_addr : Nat
  timeout : Nat
  recvs : List RecvOutcome
  reconnects : List (Option RiakErr)
deriving Repr, DecidableEq

/-- One receive(+parse) on the connection: consumes the next scripted
outcome; an exhausted script is a read failure. -/
def StreamConn.receiveStep (c : StreamConn) : RecvOutcome × StreamConn :=
  match c.recvs with
  | [] => (RecvOutcome.recvErr (RiakErr.IoError shortReadMsg), c)
  | o :: rest => (o, { c with recvs := rest })

/-- `RiakConn::reconnect()`: consumes the next scripted reconnect outcome
(`none` = success, `some e` = the reconnect itself failed with `e`). -/
def StreamConn.reconnectStep (c : StreamConn) : Option RiakErr × StreamConn :=
  match c.reconnects with
  | [] => (none, c)
  | r :: rest => (r, { c with reconnects := rest })

/-- Description of a parse failure wrapped as `RiakErr::ProtobufError`
(`src/stream.rs` lines 75, 129, 220, 275). -/
def parseFailMsg : Bytes := [112, 98]

/-- `BucketStream` (`src/stream.rs` lines 10-14). -/
structure BucketStream where
  connection : StreamConn
  done : Bool
  first_request_made : Bool
deriving Repr, DecidableEq

/-- `BucketStream::next` (`src/stream.rs` lines 52-148), with the state it
leaves behind.  The first branch (first_request_made) receives and parses
one reply: a receive failure is returned as-is (lines 59-62), a parse
failure reconnects and returns the reconnect error if that fails, else
`ProtobufError` (lines 65-77); a parsed reply yields the bucket names
converted with `from_utf8_lossy` and updates `done` (lines 80-91).  The
else branch builds and sends the first request via `exchange`: an exchange
failure reconnects and returns the reconnect error if that fails, else the
original error (lines 103-116); parse failure and success are as above,
additionally setting `first_request_made` (lines 119-147). -/
def BucketStream.next (s : BucketStream) :
    Option (Except RiakErr (List Bytes)) × BucketStream :=
  if s.done then (none, s)
  else if s.first_request_made then
    match s.connection.receiveStep with
    | (RecvOutcome.recvErr e, c) => (some (Except.error e), { s with connection := c })
    | (RecvOutcome.parseErr, c) =>
      match c.reconnectStep with
      | (some e, c2) => (some (Except.error e), { s with connection := c2 })
      | (none, c2) =>
        (some (Except.error (RiakErr.ProtobufError parseFailMsg)),
          { s with connection := c2 })
    | (RecvOutcome.frame bs d, c) =>
      (some (Except.ok (bs.map utf8Lossy)), { s with connection := c, done := d })
  else
    match s.connection.receiveStep with
    | (RecvOutcome.recvErr e, c) =>
      match c.reconnectStep with
      | (some e2, c2) => (some (Except.error e2), { s with connection := c2 })
      | (none, c2) => (some (Except.error e), { s with connection := c2 })
    | (RecvOutcome.parseErr, c) =>
      match c.reconnectStep with
      | (some e2, c2) => (some (Except.error e2), { s with connection := c2 })
      | (none, c2) =>
        (some (Except.error (RiakErr.ProtobufError parseFailMsg)),
          { s with connection := c2 })
    | (RecvOutcome.frame bs d, c) =>
      (some (Except.ok (bs.map utf8Lossy)),
        { s with connection := c, done := d, first_request_made := true })

/-- `BucketStream::all` (`src/stream.rs` lines 32-49): loop `next`,
extending the accumulator, until `None`; propagate the first error.  The
loop consumes at least one scripted outcome per yielded batch, so
`recvs.length + 1` iterations always suffice. -/
def BucketStream.allAux : Nat → BucketStream → List Bytes → Except RiakErr (List Bytes)
  | 0, _, acc => Except.ok acc
  | fuel + 1, s, acc =>
    match s.next with
    | (none, _) => Except.ok acc
    | (some (Except.error e), _) => Except.error e
    | (some (Except.ok bs), s2) => BucketStream.allAux fuel s2 (acc ++ bs)

/-- `BucketStream::all` entry point. -/
def BucketStream.all (s : BucketStream) : Except RiakErr (List Bytes) :=
  BucketStream.allAux (s.connection.recvs.length + 1) s []

/-- Drive a `BucketStream` for up to `fuel` calls to `next`, collecting the
yielded results until `next` returns `None`. -/
def BucketStream.run : Nat → BucketStream → List (Except RiakErr (List Bytes)) × BucketStream
  | 0, s => ([], s)
  | fuel + 1, s =>
    match s.next with
    | (none, s2) => ([], s2)
    | (some r, s2) =>
      let p := BucketStream.run fuel s2
      (r :: p.1, p.2)

/-- `KeyStream` (`src/stream.rs` lines 152-158). -/
structure KeyStream where
  bucket : Bytes
  connection : StreamConn
  done : Bool
  first_request_made : Bool
deriving Repr, DecidableEq

/-- `KeyStream::next` (`src/stream.rs` lines 197-293): identical control
flow to `BucketStream::next`; the batches are raw key byte vectors
(`take_keys`, no UTF-8 conversion). -/
def KeyStream.next (s : KeyStream) :
    Option (Except RiakErr (List Bytes)) × KeyStream :=
  if s.done then (none, s)
  else if s.first_request_made then
    match s.connection.receiveStep with
    | (RecvOutcome.recvErr e, c) => (some (Except.error e), { s with connection := c })
    | (RecvOutcome.parseErr, c) =>
      match c.reconnectStep with
      | (some e, c2) => (some (Except.error e), { s with connection := c2 })
      | (none, c2) =>
        (some (Except.error (RiakErr.ProtobufError parseFailMsg)),
          { s with connection := c2 })
    | (RecvOutcome.frame ks d, c) =>
      (some (Except.ok ks), { s with connection := c, done := d })
  else
    match s.connection.receiveStep with
    | (RecvOutcome.recvErr e, c) =>
      match c.reconnectStep with
      | (some e2, c2) => (some (Except.error e2), { s with connection := c2 })
      | (none, c2) => (some (Except.error e), { s with connection := c2 })
    | (RecvOutcome.parseErr, c) =>
      match c.reconnectStep with
      | (some e2, c2) => (some (Except.error e2), { s with connection := c2 })
      | (none, c2) =>
        (some (Except.error (RiakErr.ProtobufError parseFailMsg)),
          { s with connection := c2 })
    | (RecvOutcome.frame ks d, c) =>
      (some (Except.ok ks),
        { s with connection := c, done := d, first_request_made := true })

/-- `KeyStream::all` (`src/stream.rs` lines 177-194). -/
def KeyStream.allAux : Nat → KeyStream → List Bytes → Except RiakErr (List Bytes)
  | 0, _, acc => Except.ok acc
  | fuel + 1, s, acc =>
    match s.next with
    | (none, _) => Except.ok acc
    | (some (Except.error e), _) => Except.error e
    | (some (Except.ok ks), s2) => KeyStream.allAux fuel s2 (acc ++ ks)

/-- `KeyStream::all` entry point. -/
def KeyStream.all (s : KeyStream) : Except RiakErr (List Bytes) :=
  KeyStream.allAux (s.connection.recvs.length + 1) s []

/-- Drive a `KeyStream` for up to `fuel` calls to `next`. -/
def KeyStream.run : Nat → KeyStream → List (Except RiakErr (List Bytes)) × KeyStream
  | 0, s => ([], s)
  | fuel + 1, s =>
    match s.next with
    | (none, s2) => ([], s2)
    | (some r, s2) =>
      let p := KeyStream.run fuel s2
      (r :: p.1, p.2)

/-- The scripted receive outcomes of a server that sends the batches `pre`
with `done = false`, then the batch `lastB` with `done = true`, then
whatever `rest` holds. -/
def serverScript (pre : List (List Bytes)) (lastB : List Bytes)
    (rest : List RecvOutcome) : List RecvOutcome :=
  pre.map (fun b => RecvOutcome.frame b false) ++ RecvOutcome.frame lastB true :: rest

/-- Running a fresh-or-running `BucketStream` over a server script yields
exactly the scripted batches (lossily decoded) and stops in the terminal
state, with the trailing script untouched. -/
theorem bucketRun_serverScript (pre : List (List Bytes)) (lastB : List Bytes)
    (rest : List RecvOutcome) (rs : List (Option RiakErr)) (a t : Nat) (fr : Bool) :
    BucketStream.run (pre.length + 2)
        ⟨⟨a, t, serverScript pre lastB rest, rs⟩, false, fr⟩ =
      ((pre ++ [lastB]).map (fun b => Except.ok (b.map utf8Lossy)),
        ⟨⟨a, t, rest, rs⟩, true, true⟩) := by
  induction pre generalizing fr with
  | nil =>
    cases fr <;>
      simp [BucketStream.run, BucketStream.next, StreamConn.receiveStep, serverScript]
  | cons b bs ih =>
    have hnext : (BucketStream.next
        ⟨⟨a, t, serverScript (b :: bs) lastB rest, rs⟩, false, fr⟩)
        = (some (Except.ok (b.map utf8Lossy)),
            ⟨⟨a, t, serverScript bs lastB rest, rs⟩, false, true⟩) := by
      cases fr <;> simp [BucketStream.next, StreamConn.receiveStep, serverScript]
    have harith : (b :: bs).length + 2 = (bs.length + 2) + 1 := by
      simp [List.length_cons]
    rw [harith, BucketStream.run, hnext]
    simp only []
    rw [ih true]
    simp

/-- `all` over a server script accumulates exactly the scripted batches. -/
theorem bucketAllAux_serverScript (pre : List (List Bytes)) (lastB : List Bytes)
    (rest : List RecvOutcome) (rs : List (Option RiakErr)) (a t : Nat) (fr : Bool)
    (acc : List Bytes) (fuel : Nat) (hf : pre.length + 2 ≤ fuel) :
    BucketStream.allAux fuel ⟨⟨a, t, serverScript pre lastB rest, rs⟩, false, fr⟩ acc
      = Except.ok (acc ++ ((pre ++ [lastB]).map (fun b => b.map utf8Lossy)).flatten) := by
  induction pre generalizing fr acc fuel with
  | nil =>
    obtain ⟨f, rfl⟩ : ∃ f, fuel = f + 1 := ⟨fuel - 1, by omega⟩
    obtain ⟨g, rfl⟩ : ∃ g, f = g + 1 := ⟨f - 1, by simp at hf; omega⟩
    have hnext : (BucketStream.next ⟨⟨a, t, serverScript [] lastB rest, rs⟩, false, fr⟩)
        = (some (Except.ok (lastB.map utf8Lossy)), ⟨⟨a, t, rest, rs⟩, true, true⟩) := by
      cases fr <;> simp [BucketStream.next, StreamConn.receiveStep, serverScript]
    rw [BucketStream.allAux, hnext]
    simp only []
    rw [BucketStream.allAux]
    simp [BucketStream.next]
  | cons b bs ih =>
    obtain ⟨f, rfl⟩ : ∃ f, fuel = f + 1 := ⟨fuel - 1, by omega⟩
    have hnext : (BucketStream.next
        ⟨⟨a, t, serverScript (b :: bs) lastB rest, rs⟩, false, fr⟩)
        = (some (Except.ok (b.map utf8Lossy)),
            ⟨⟨a, t, serverScript bs lastB rest, rs⟩, false, true⟩) := by
      cases fr <;> simp [BucketStream.next, StreamConn.receiveStep, serverScript]
    rw [BucketStream.allAux, hnext]
    simp only []
    rw [ih true (acc ++ b.map utf8Lossy) f (by simp at hf ⊢; omega)]
    simp

/-- `KeyStream` analogue of `bucketRun_serverScript`: the yielded
key batches are exactly the scripted ones, verbatim. -/
theorem keyRun_serverScript (pre : List (List Bytes)) (lastB : List Bytes)
    (rest : List RecvOutcome) (rs : List (Option RiakErr)) (a t : Nat)
    (bucket : Bytes) (fr : Bool) :
    KeyStream.run (pre.length + 2)
        ⟨bucket, ⟨a, t, serverScript pre lastB rest, rs⟩, false, fr⟩ =
      ((pre ++ [lastB]).map Except.ok,
        ⟨bucket, ⟨a, t, rest, rs⟩, true, true⟩) := by
  induction pre generalizing fr with
  | nil =>
    cases fr <;>
      simp [KeyStream.run, KeyStream.next, StreamConn.receiveStep, serverScript]
  | cons b bs ih =>
    have hnext : (KeyStream.next
        ⟨bucket, ⟨a, t, serverScript (b :: bs) lastB rest, rs⟩, false, fr⟩)
        = (some (Except.ok b),
            ⟨bucket, ⟨a, t, serverScript bs lastB rest, rs⟩, false, true⟩) := by
      cases fr <;> simp [KeyStream.next, StreamConn.receiveStep, serverScript]
    have harith : (b :: bs).length + 2 = (bs.length + 2) + 1 := by
      simp [List.length_cons]
    rw [harith, KeyStream.run, hnext]
    simp only []
    rw [ih true]
    simp

/-- `KeyStream` analogue of `bucketAllAux_serverScript`. -/
theorem keyAllAux_serverScript (pre : List (List Bytes)) (lastB : List Bytes)
    (rest : List RecvOutcome) (rs : List (Option RiakErr)) (a t : Nat)
    (bucket : Bytes) (fr : Bool) (acc : List Bytes) (fuel : Nat)
    (hf : pre.length + 2 ≤ fuel) :
    KeyStream.allAux fuel ⟨bucket, ⟨a, t, serverScript pre lastB rest, rs⟩, false, fr⟩ acc
      = Except.ok (acc ++ (pre ++ [lastB]).flatten) := by
  induction pre generalizing fr acc fuel with
  | nil =>
    obtain ⟨f, rfl⟩ : ∃ f, fuel = f + 1 := ⟨fuel - 1, by omega⟩
    obtain ⟨g, rfl⟩ : ∃ g, f = g + 1 := ⟨f - 1, by simp at hf; omega⟩
    have hnext : (KeyStream.next ⟨bucket, ⟨a, t, serverScript [] lastB rest, rs⟩, false, fr⟩)
        = (some (Except.ok lastB), ⟨bucket, ⟨a, t, rest, rs⟩, true, true⟩) := by
      cases fr <;> simp [KeyStream.next, StreamConn.receiveStep, serverScript]
    rw [KeyStream.allAux, hnext]
    simp only []
    rw [KeyStream.allAux]
    simp [KeyStream.next]
  | cons b bs ih =>
    obtain ⟨f, rfl⟩ : ∃ f, fuel = f + 1 := ⟨fuel - 1, by omega⟩
    have hnext : (KeyStream.next
        ⟨bucket, ⟨a, t, serverScript (b :: bs) lastB rest, rs⟩, false, fr⟩)
        = (some (Except.ok b),
            ⟨bucket, ⟨a, t, serverScript bs lastB rest, rs⟩, false, true⟩) := by
      cases fr <;> simp [KeyStream.next, StreamConn.receiveStep, serverScript]
    rw [KeyStream.allAux, hnext]
    simp only []
    rw [ih true (acc ++ b) f (by simp at hf ⊢; omega)]
    simp

/-- A done `BucketStream` is a fixpoint of `next`: every later call yields
`None` and leaves the state unchanged (`src/stream.rs` lines 53-55). -/
theorem bucketNext_done (s : BucketStream) (h : s.done = true) :
    s.next = (none, s) := by
  simp [BucketStream.next, h]

/-- A done `KeyStream` is a fixpoint of `next` (`src/stream.rs` lines 198-200). -/
theorem keyNext_done (s : KeyStream) (h : s.done = true) :
    s.next = (none, s) := by
  simp [KeyStream.next, h]

/-- C1: for every stream and every sequence of reply frames — batches `pre`
with `done = false` followed by the batch `lastB` with `done = true` and an
arbitrary unread tail — `next` yields exactly the server's batches in
order, ending on and including `lastB`; the stream then reaches a state
where every later `next` returns `None`; and `all` returns their
concatenation.  For bucket streams the names pass through
`from_utf8_lossy`, so the hypotheses ask that the names are valid UTF-8
(fixed by the conversion); key batches are byte-exact unconditionally. -/
theorem streams_deliver_exactly_the_sent_batches
    (pre : List (List Bytes)) (lastB : List Bytes) (rest : List RecvOutcome)
    (rs : List (Option RiakErr)) (a t : Nat) (bucket : Bytes)
    (h1 : pre.map (fun b => b.map utf8Lossy) = pre)
    (h2 : lastB.map utf8Lossy = lastB) :
    (BucketStream.run (pre.length + 2)
        ⟨⟨a, t, serverScript pre lastB rest, rs⟩, false, false⟩).1
      = (pre ++ [lastB]).map Except.ok ∧
    (BucketStream.run (pre.length + 2)
        ⟨⟨a, t, serverScript pre lastB rest, rs⟩, false, false⟩).2.next
      = (none, (BucketStream.run (pre.length + 2)
          ⟨⟨a, t, serverScript pre lastB rest, rs⟩, false, false⟩).2) ∧
    BucketStream.all ⟨⟨a, t, serverScript pre lastB rest, rs⟩, false, false⟩
      = Except.ok (pre ++ [lastB]).flatten ∧
    (KeyStream.run (pre.length + 2)
        ⟨bucket, ⟨a, t, serverScript pre lastB rest, rs⟩, false, false⟩).1
      = (pre ++ [lastB]).map Except.ok ∧
    (KeyStream.run (pre.length + 2)
        ⟨bucket, ⟨a, t, serverScript pre lastB rest, rs⟩, false, false⟩).2.next
      = (none, (KeyStream.run (pre.length + 2)
          ⟨bucket, ⟨a, t, serverScript pre lastB rest, rs⟩, false, false⟩).2) ∧
    KeyStream.all ⟨bucket, ⟨a, t, serverScript pre lastB rest, rs⟩, false, false⟩
      = Except.ok (pre ++ [lastB]).flatten := by
  have hmaps : (pre ++ [lastB]).map (fun b => b.map utf8Lossy) = pre ++ [lastB] := by
    simp [h1, h2]
  have hrunB := bucketRun_serverScript pre lastB rest rs a t false
  have hrunK := keyRun_serverScript pre lastB rest rs a t bucket false
  have hfuel : pre.length + 2 ≤ (serverScript pre lastB rest).length + 1 := by
    simp [serverScript]
  refine ⟨?_, ?_, ?_, ?_, ?_, ?_⟩
  · rw [hrunB]
    calc (pre ++ [lastB]).map (fun b => Except.ok (b.map utf8Lossy))
        = ((pre ++ [lastB]).map (fun b => b.map utf8Lossy)).map Except.ok := by
          simp [List.map_map]
      _ = (pre ++ [lastB]).map Except.ok := by rw [hmaps]
  · rw [hrunB]
    exact bucketNext_done _ rfl
  · rw [BucketStream.all,
      bucketAllAux_serverScript pre lastB rest rs a t false [] _ hfuel,
      hmaps]
    simp
  · rw [hrunK]
  · rw [hrunK]
    exact keyNext_done _ rfl
  · rw [KeyStream.all,
      keyAllAux_serverScript pre lastB rest rs a t bucket false [] _ hfuel]
    simp

/-- C1 witness: scenario E4 — three `ListBucketsResp` frames
`{buckets = [b"a", b"b"], done = false}`, `{buckets = [b"c"], done = false}`,
`{buckets = [], done = true}`; `all()` returns `[b"a", b"b", b"c"]`. -/
theorem streams_deliver_exactly_the_sent_batches_witness :
    ([[[97], [98]], [[99]]] : List (List Bytes)).map (fun b => b.map utf8Lossy)
      = [[[97], [98]], [[99]]] ∧
    ([] : List Bytes).map utf8Lossy = [] ∧
    BucketStream.all
        ⟨⟨0, 0, serverScript [[[97], [98]], [[99]]] [] [], []⟩, false, false⟩
      = Except.ok [[97], [98], [99]] := by
  have h := streams_deliver_exactly_the_sent_batches
    [[[97], [98]], [[99]]] [] [] [] 0 0 [107] (by decide) (by decide)
  exact ⟨by decide, by decide, by simpa using h.2.2.1⟩

/-- C2 counterexample: a `BucketStream` past its first request whose next
receive fails with `IoError [1]`, while a reconnect (were one attempted)
would fail with `IoError [2]`.  The claim requires the transport to be
reconnected before the error surfaces, with the reconnect error `IoError
[2]` replacing the original; the code returns the original `IoError [1]`
and leaves the reconnect script untouched (`src/stream.rs` lines 59-62). -/
theorem stream_recv_failure_skips_reconnect :
    BucketStream.next
        ⟨⟨0, 0, [RecvOutcome.recvErr (RiakErr.IoError [1])],
          [some (RiakErr.IoError [2])]⟩, false, true⟩ =
      (some (Except.error (RiakErr.IoError [1])),
        ⟨⟨0, 0, [], [some (RiakErr.IoError [2])]⟩, false, true⟩) ∧
    RiakErr.IoError [1] ≠ RiakErr.IoError [2] := by
  decide

/-- C2 amended: on a parse failure in either branch of `next`, and on a
send/receive (exchange) failure during the first request, the stream's
transport is reconnected before the error is surfaced, and a failing
reconnect's error replaces the original error; a receive failure after the
first request is surfaced without any reconnect attempt. -/
theorem stream_reconnect_exactly_on_parse_and_first_exchange_failures
    (c : StreamConn) (e e2 : RiakErr) (tl : List RecvOutcome)
    (rl : List (Option RiakErr)) (fr : Bool) (bucket : Bytes) :
    ((c.recvs = RecvOutcome.parseErr :: tl → c.reconnects = some e2 :: rl →
      BucketStream.next ⟨c, false, fr⟩ =
        (some (Except.error e2),
          ⟨{ c with recvs := tl, reconnects := rl }, false, fr⟩)) ∧
    (c.recvs = RecvOutcome.parseErr :: tl → c.reconnects = none :: rl →
      BucketStream.next ⟨c, false, fr⟩ =
        (some (Except.error (RiakErr.ProtobufError parseFailMsg)),
          ⟨{ c with recvs := tl, reconnects := rl }, false, fr⟩)) ∧
    (c.recvs = RecvOutcome.recvErr e :: tl → c.reconnects = some e2 :: rl →
      BucketStream.next ⟨c, false, false⟩ =
        (some (Except.error e2),
          ⟨{ c with recvs := tl, reconnects := rl }, false, false⟩)) ∧
    (c.recvs = RecvOutcome.recvErr e :: tl → c.reconnects = none :: rl →
      BucketStream.next ⟨c, false, false⟩ =
        (some (Except.error e),
          ⟨{ c with recvs := tl, reconnects := rl }, false, false⟩)) ∧
    (c.recvs = RecvOutcome.recvErr e :: tl →
      BucketStream.next ⟨c, false, true⟩ =
        (some (Except.error e), ⟨{ c with recvs := tl }, false, true⟩))) ∧
    ((c.recvs = RecvOutcome.parseErr :: tl → c.reconnects = some e2 :: rl →
      KeyStream.next ⟨bucket, c, false, fr⟩ =
        (some (Except.error e2),
          ⟨bucket, { c with recvs := tl, reconnects := rl }, false, fr⟩)) ∧
    (c.recvs = RecvOutcome.parseErr :: tl → c.reconnects = none :: rl →
      KeyStream.next ⟨bucket, c, false, fr⟩ =
        (some (Except.error (RiakErr.ProtobufError parseFailMsg)),
          ⟨bucket, { c with recvs := tl, reconnects := rl }, false, fr⟩)) ∧
    (c.recvs = RecvOutcome.recvErr e :: tl → c.reconnects = some e2 :: rl →
      KeyStream.next ⟨bucket, c, false, false⟩ =
        (some (Except.error e2),
          ⟨bucket, { c with recvs := tl, reconnects := rl }, false, false⟩)) ∧
    (c.recvs = RecvOutcome.recvErr e :: tl → c.reconnects = none :: rl →
      KeyStream.next ⟨bucket, c, false, false⟩ =
        (some (Except.error e),
          ⟨bucket, { c with recvs := tl, reconnects := rl }, false, false⟩)) ∧
    (c.recvs = RecvOutcome.recvErr e :: tl →
      KeyStream.next ⟨bucket, c, false, true⟩ =
        (some (Except.error e), ⟨bucket, { c with recvs := tl }, false, true⟩))) := by
  rcases c with ⟨a, t, recvs, recons⟩
  refine ⟨⟨?_, ?_, ?_, ?_, ?_⟩, ?_, ?_, ?_, ?_, ?_⟩ <;>
    (intro h1
     first
      | (intro h2
         simp only at h1 h2
         subst h1
         subst h2
         cases fr <;>
           simp [BucketStream.next, KeyStream.next, StreamConn.receiveStep,
             StreamConn.reconnectStep])
      | (simp only at h1
         subst h1
         simp [BucketStream.next, KeyStream.next, StreamConn.receiveStep,
           StreamConn.reconnectStep]))

/-- C2 amended witness: a parse failure on a running bucket stream, with
the reconnect itself failing — the reconnect error replaces the parse
error; and a receive failure on a running key stream — no reconnect. -/
theorem stream_reconnect_exactly_witness :
    BucketStream.next
        ⟨⟨0, 0, [RecvOutcome.parseErr], [some (RiakErr.IoError [2])]⟩, false, true⟩ =
      (some (Except.error (RiakErr.IoError [2])),
        ⟨⟨0, 0, [], []⟩, false, true⟩) ∧
    KeyStream.next
        ⟨[107], ⟨0, 0, [RecvOutcome.recvErr (RiakErr.IoError [3])],
          [none]⟩, false, true⟩ =
      (some (Except.error (RiakErr.IoError [3])),
        ⟨[107], ⟨0, 0, [], [none]⟩, false, true⟩) := by
  constructor
  · exact (stream_reconnect_exactly_on_parse_and_first_exchange_failures
      ⟨0, 0, [RecvOutcome.parseErr], [some (RiakErr.IoError [2])]⟩
      (RiakErr.IoError [9]) (RiakErr.IoError [2]) [] [] true [107]).1.1 rfl rfl
  · exact (stream_reconnect_exactly_on_parse_and_first_exchange_failures
      ⟨0, 0, [RecvOutcome.recvErr (RiakErr.IoError [3])], [none]⟩
      (RiakErr.IoError [3]) (RiakErr.IoError [9]) [] [none] true [107]).2.2.2.2.2 rfl

/-- A non-done `BucketStream` always yields `Some` from `next`. -/
theorem bucketNext_some_of_not_done (s : BucketStream)
    (h : s.done = false) : (s.next).1.isSome := by
  rcases s with ⟨⟨a, t, recvs, recons⟩, d, fr⟩
  have hd : d = false := h
  subst hd
  cases fr <;>
    rcases recvs with _ | ⟨⟨data, dn⟩ | e1 | _, tl⟩ <;>
    rcases recons with _ | ⟨_ | e2, rl⟩ <;>
    simp [BucketStream.next, StreamConn.receiveStep, StreamConn.reconnectStep]

/-- A non-done `KeyStream` always yields `Some` from `next`. -/
theorem keyNext_some_of_not_done (s : KeyStream)
    (h : s.done = false) : (s.next).1.isSome := by
  rcases s with ⟨bucket, ⟨a, t, recvs, recons⟩, d, fr⟩
  have hd : d = false := h
  subst hd
  cases fr <;>
    rcases recvs with _ | ⟨⟨data, dn⟩ | e1 | _, tl⟩ <;>
    rcases recons with _ | ⟨_ | e2, rl⟩ <;>
    simp [KeyStream.next, StreamConn.receiveStep, StreamConn.reconnectStep]

/-- C9: when `next` returns an error, `done` and `first_request_made` keep
their previous values (in particular `done` stays `false`), so the next
call to `next` again returns `Some`. -/
theorem stream_error_keeps_done_and_first_request_made :
    (∀ (s s' : BucketStream) (e : RiakErr),
      s.next = (some (Except.error e), s') →
      s'.done = s.done ∧ s'.first_request_made = s.first_request_made ∧
      s.done = false ∧ (s'.next).1.isSome) ∧
    (∀ (s s' : KeyStream) (e : RiakErr),
      s.next = (some (Except.error e), s') →
      s'.done = s.done ∧ s'.first_request_made = s.first_request_made ∧
      s.done = false ∧ (s'.next).1.isSome) := by
  constructor
  · intro s s' e h
    rcases s with ⟨⟨a, t, recvs, recons⟩, d, fr⟩
    cases d
    · cases fr <;>
        rcases recvs with _ | ⟨⟨data, dn⟩ | e1 | _, tl⟩ <;>
        rcases recons with _ | ⟨_ | e2, rl⟩ <;>
        simp [BucketStream.next, StreamConn.receiveStep, StreamConn.reconnectStep] at h <;>
        obtain ⟨-, rfl⟩ := h <;>
        exact ⟨rfl, rfl, rfl, bucketNext_some_of_not_done _ rfl⟩
    · simp [BucketStream.next] at h
  · intro s s' e h
    rcases s with ⟨bucket, ⟨a, t, recvs, recons⟩, d, fr⟩
    cases d
    · cases fr <;>
        rcases recvs with _ | ⟨⟨data, dn⟩ | e1 | _, tl⟩ <;>
        rcases recons with _ | ⟨_ | e2, rl⟩ <;>
        simp [KeyStream.next, StreamConn.receiveStep, StreamConn.reconnectStep] at h <;>
        obtain ⟨-, rfl⟩ := h <;>
        exact ⟨rfl, rfl, rfl, keyNext_some_of_not_done _ rfl⟩
    · simp [KeyStream.next] at h

/-- C9 witness: a receive failure on a running bucket stream leaves both
flags untouched and the following `next` still yields `Some`. -/
theorem stream_error_keeps_flags_witness :
    ((⟨⟨0, 0, [], []⟩, false, true⟩ : BucketStream).done = false ∧
      (⟨⟨0, 0, [], []⟩, false, true⟩ : BucketStream).first_request_made = true) ∧
    (BucketStream.next ⟨⟨0, 0, [], []⟩, false, true⟩).1.isSome := by
  have h := (stream_error_keeps_done_and_first_request_made).1
    ⟨⟨0, 0, [], []⟩, false, true⟩ ⟨⟨0, 0, [], []⟩, false, true⟩
    (RiakErr.IoError shortReadMsg) (by decide)
  exact ⟨⟨h.1, h.2.1⟩, h.2.2.2⟩

/-! ## The `Client` façade (`src/lib.rs`) -/

/-- `Client` (`src/lib.rs` lines 74-77): its own connection plus a separate
`timeout` field. -/
structure Client where
  connection : StreamConn
  timeout : Nat
deriving Repr, DecidableEq

/-- `Client::set_timeout` (`src/lib.rs` lines 134-136): assigns only the
client's own `timeout` field. -/
def Client.set_timeout (c : Client) (t : Nat) : Client :=
  { c with timeout := t }

/-- `BucketStream::new` (`src/stream.rs` lines 18-29): opens a fresh
connection to `client.connection.peer_addr` with
`client.connection.timeout`.  The fresh socket's scripted behavior is
passed in; the `RiakConn::new` io-failure branch (line 22) is outside the
state model. -/
def BucketStream.new (client : Client) (recvs : List RecvOutcome)
    (reconnects : List (Option RiakErr)) : BucketStream :=
  ⟨⟨client.connection.peer_addr, client.connection.timeout, recvs, reconnects⟩,
    false, false⟩

/-- `KeyStream::new` (`src/stream.rs` lines 162-174). -/
def KeyStream.new (client : Client) (bucket : Bytes) (recvs : List RecvOutcome)
    (reconnects : List (Option RiakErr)) : KeyStream :=
  ⟨bucket, ⟨client.connection.peer_addr, client.connection.timeout, recvs, reconnects⟩,
    false, false⟩

/-- C10: `set_timeout` changes only the client's own `timeout` field; the
connection (address, stored timeout, socket state) is untouched, and every
stream created afterwards copies the connection's original address and
timeout, not the new client timeout. -/
theorem set_timeout_leaves_connection_and_streams_unchanged
    (c : Client) (t : Nat) (recvs : List RecvOutcome)
    (rl : List (Option RiakErr)) (bucket : Bytes) :
    (c.set_timeout t).timeout = t ∧
    (c.set_timeout t).connection = c.connection ∧
    (BucketStream.new (c.set_timeout t) recvs rl).connection.timeout
      = c.connection.timeout ∧
    (BucketStream.new (c.set_timeout t) recvs rl).connection.peer_addr
      = c.connection.peer_addr ∧
    (KeyStream.new (c.set_timeout t) bucket recvs rl).connection.timeout
      = c.connection.timeout ∧
    (KeyStream.new (c.set_timeout t) bucket recvs rl).connection.peer_addr
      = c.connection.peer_addr :=
  ⟨rfl, rfl, rfl, rfl, rfl, rfl⟩

/-! ## Exchange code pairs passed by the façade (`src/lib.rs`)

Each façade operation invokes
`self.connection.exchange(request_code, expected_response_code, &bytes)`;
the code pair below is read off the corresponding call site in
`src/lib.rs`. -/

/-- The pair of message codes a façade operation passes to `exchange`. -/
structure ExchangeCall where
  req_code : Nat
  resp_code : Nat
deriving Repr, DecidableEq

/-- `set_bucket_properties` (`src/lib.rs` line 296). -/
def set_bucket_properties_exchange : ExchangeCall :=
  ⟨codes.RpbSetBucketReq, codes.RpbSetBucketResp⟩

/-- `get_bucket_properties` (`src/lib.rs` lines 331-332). -/
def get_bucket_properties_exchange : ExchangeCall :=
  ⟨codes.RpbGetBucketReq, codes.RpbGetBucketResp⟩

/-- `set_bucket_type_properties` (`src/lib.rs` lines 382-383). -/
def set_bucket_type_properties_exchange : ExchangeCall :=
  ⟨codes.RpbSetBucketTypeReq, codes.RpbSetBucketResp⟩

/-- `get_bucket_type_properties` (`src/lib.rs` lines 418-419). -/
def get_bucket_type_properties_exchange : ExchangeCall :=
  ⟨codes.RpbGetBucketTypeReq, codes.RpbGetBucketResp⟩

/-- `store_object` (`src/lib.rs` line 561). -/
def store_object_exchange : ExchangeCall :=
  ⟨codes.RpbPutReq, codes.RpbPutResp⟩

/-- `delete_object` (`src/lib.rs` line 637). -/
def delete_object_exchange : ExchangeCall :=
  ⟨codes.RpbDelReq, codes.RpbDelResp⟩

/-- `set_yokozuna_schema` (`src/lib.rs` lines 748-749). -/
def set_yokozuna_schema_exchange : ExchangeCall :=
  ⟨codes.RpbYokozunaSchemaPutReq, codes.RpbPutResp⟩

/-- `set_yokozuna_index` (`src/lib.rs` line 826). -/
def set_yokozuna_index_exchange : ExchangeCall :=
  ⟨codes.RpbYokozunaIndexPutReq, codes.RpbPutResp⟩

/-- `delete_yokozuna_index` (`src/lib.rs` lines 915-916). -/
def delete_yokozuna_index_exchange : ExchangeCall :=
  ⟨codes.RpbYokozunaIndexDeleteReq, codes.RpbDelResp⟩

/-- C6: every façade operation whose message pair reuses a response code
passes exactly the reused code as the expected response code of its
exchange: `set_bucket_type_properties` expects the SetBucket response,
`get_bucket_type_properties` the GetBucket response, `set_yokozuna_schema`
and `set_yokozuna_index` the Put response, and `delete_yokozuna_index` the
Delete response. -/
theorem facade_honors_reused_response_codes :
    set_bucket_type_properties_exchange.resp_code
      = set_bucket_properties_exchange.resp_code ∧
    set_bucket_type_properties_exchange.resp_code = codes.RpbSetBucketResp ∧
    get_bucket_type_properties_exchange.resp_code
      = get_bucket_properties_exchange.resp_code ∧
    get_bucket_type_properties_exchange.resp_code = codes.RpbGetBucketResp ∧
    set_yokozuna_schema_exchange.resp_code = store_object_exchange.resp_code ∧
    set_yokozuna_schema_exchange.resp_code = codes.RpbPutResp ∧
    set_yokozuna_index_exchange.resp_code = store_object_exchange.resp_code ∧
    set_yokozuna_index_exchange.resp_code = codes.RpbPutResp ∧
    delete_yokozuna_index_exchange.resp_code = delete_object_exchange.resp_code ∧
    delete_yokozuna_index_exchange.resp_code = codes.RpbDelResp :=
  ⟨rfl, rfl, rfl, rfl, rfl, rfl, rfl, rfl, rfl, rfl⟩

/-! ## Fetch-object conversions (`src/object.rs`, `src/rpb/utils.rs`)

`RpbContent`, `RpbGetReq` and `RpbGetResp` are generated protobuf records
(their module is not under `src/`); they are modelled as plain records with
`Option` fields for the schema's optional fields, which is exactly what the
generated `has_X` / `get_X` / `set_X` accessor pairs used by
`src/rpb/utils.rs` observe. -/

/-- `ObjectContent` (`src/object.rs` lines 524-539). -/
structure ObjectContent where
  value : Bytes
  content_type : Option Bytes
  charset : Option Bytes
  content_encoding : Option Bytes
  vtag : Option Bytes
  last_mod : Option Nat
  last_mod_usecs : Option Nat
  deleted : Option Bool
deriving Repr, DecidableEq

/-- `ObjectContent::new` (`src/object.rs` lines 542-553): only the value is
set. -/
def ObjectContent.new (value : Bytes) : ObjectContent :=
  ⟨value, none, none, none, none, none, none, none⟩

/-- The generated `RpbContent` record (fields per the riak_kv schema). -/
structure RpbContent where
  value : Bytes
  content_type : Option Bytes
  charset : Option Bytes
  content_encoding : Option Bytes
  vtag : Option Bytes
  last_mod : Option Nat
  last_mod_usecs : Option Nat
  deleted : Option Bool
deriving Repr, DecidableEq

/-- `rpb_content_to_object_content` (`src/rpb/utils.rs` lines 128-148):
takes the value, then copies content_type, charset and content_encoding
when present — and nothing else. -/
def rpb_content_to_object_content (rpb_content : RpbContent) : ObjectContent :=
  let oc := ObjectContent.new rpb_content.value
  let oc := match rpb_content.content_type with
    | some v => { oc with content_type := some v }
    | none => oc
  let oc := match rpb_content.charset with
    | some v => { oc with charset := some v }
    | none => oc
  let oc := match rpb_content.content_encoding with
    | some v => { oc with content_encoding := some v }
    | none => oc
  oc

/-- The generated `RpbGetResp` record: repeated content, optional vclock
(read with the defaulting getter `get_vclock`), optional unchanged. -/
structure RpbGetResp where
  content : List RpbContent
  vclock : Bytes
  unchanged : Option Bool
deriving Repr, DecidableEq

/-- `FetchObjectResp` (`src/object.rs` lines 477-481). -/
structure FetchObjectResp where
  content : List ObjectContent
  vclock : Bytes
  unchanged : Option Bool
deriving Repr, DecidableEq

/-- `FetchObjectResp::new` (`src/object.rs` lines 484-490). -/
def FetchObjectResp.new (content : List ObjectContent) (vclock : Bytes) :
    FetchObjectResp :=
  ⟨content, vclock, none⟩

/-- `rpb_get_resp_to_fetch_object_resp` (`src/rpb/utils.rs` lines 163-180):
converts every content entry (the source's push loop is `List.map`), builds
the response, and copies `unchanged` when present. -/
def rpb_get_resp_to_fetch_object_resp (rpb_get_resp : RpbGetResp) :
    FetchObjectResp :=
  let siblings := rpb_get_resp.content.map rpb_content_to_object_content
  let resp := FetchObjectResp.new siblings rpb_get_resp.vclock
  match rpb_get_resp.unchanged with
  | some u => { resp with unchanged := some u }
  | none => resp

/-- C8: each `ObjectContent` in a fetch response gets only its value,
content_type, charset and content_encoding from the wire record; vtag,
last_mod, last_mod_usecs and deleted are always `None` no matter what the
server sent. -/
theorem fetch_response_content_drops_vtag_and_modification_metadata
    (r : RpbGetResp) (rc : RpbContent) :
    (rpb_get_resp_to_fetch_object_resp r).content
      = r.content.map rpb_content_to_object_content ∧
    (rpb_content_to_object_content rc).value = rc.value ∧
    (rpb_content_to_object_content rc).content_type = rc.content_type ∧
    (rpb_content_to_object_content rc).charset = rc.charset ∧
    (rpb_content_to_object_content rc).content_encoding = rc.content_encoding ∧
    (rpb_content_to_object_content rc).vtag = none ∧
    (rpb_content_to_object_content rc).last_mod = none ∧
    (rpb_content_to_object_content rc).last_mod_usecs = none ∧
    (rpb_content_to_object_content rc).deleted = none := by
  constructor
  · cases hu : r.unchanged <;>
      simp [rpb_get_resp_to_fetch_object_resp, FetchObjectResp.new, hu]
  · refine ⟨?_, ?_, ?_, ?_, ?_, ?_, ?_, ?_⟩ <;>
      rcases rc with ⟨v, _ | ct, _ | cs, _ | ce, vt, lm, lmu, dl⟩ <;>
      simp [rpb_content_to_object_content, ObjectContent.new]

/-- `FetchObjectReq` (`src/object.rs` lines 409-426): required bucket and
key plus eleven optional fields. -/
structure FetchObjectReq where
  bucket : Bytes
  key : Bytes
  r : Option Nat
  pr : Option Nat
  basic_quorum : Option Bool
  notfound_ok : Option Bool
  if_modified : Option Bool
  head : Option Bool
  deletedvclock : Option Bool
  timeout : Option Nat
  sloppy_quorum : Option Bool
  n_val : Option Nat
  bucket_type : Option Bytes
deriving Repr, DecidableEq

/-- The generated `RpbGetReq` record; `RpbGetReq::new()` leaves every field
unset (required bytes fields default to empty). -/
structure RpbGetReq where
  bucket : Bytes
  key : Bytes
  r : Option Nat
  pr : Option Nat
  basic_quorum : Option Bool
  notfound_ok : Option Bool
  if_modified : Option Bool
  head : Option Bool
  deletedvclock : Option Bool
  timeout : Option Nat
  sloppy_quorum : Option Bool
  n_val : Option Nat
  bucket_type : Option Bytes
deriving Repr, DecidableEq

/-- `RpbGetReq::new()`. -/
def RpbGetReq.new : RpbGetReq :=
  ⟨[], [], none, none, none, none, none, none, none, none, none, none, none⟩

/-- `fetch_object_req_to_rpb_get_req` (`src/rpb/utils.rs` lines 150-160):
sets only bucket and key on the fresh wire record; the optional fields are
not copied (the `// TODO` at line 157). -/
def fetch_object_req_to_rpb_get_req (fetch_object_req : FetchObjectReq) :
    RpbGetReq :=
  { RpbGetReq.new with
      bucket := fetch_object_req.bucket
      key := fetch_object_req.key }

/-- C7 (code bug): at a `FetchObjectReq` with every optional field set, the
wire record produced by `fetch_object_req_to_rpb_get_req` carries only
bucket and key — every optional field is left unset, contrary to the
schema-faithful copying the spec requires (the source marks the omission
with `// TODO`). -/
theorem fetch_object_req_conversion_drops_all_optional_fields :
    fetch_object_req_to_rpb_get_req
        ⟨[98], [107], some 1, some 2, some true, some true, some true,
          some true, some true, some 5, some true, some 3, some [116]⟩
      = ⟨[98], [107], none, none, none, none, none, none, none, none,
          none, none, none⟩ := by
  decide

end Riak
